import Mathlib

/-!
# Verification of the snap-serve batch image-processing pipeline

Shallow embedding of the Go code in `handlers/image-filters.go` and
`handlers/image-handler.go` of the snap-serve repository, together with
theorems settling the specification claims about the filter-spec resolver,
the per-item fetch stage, the upload/persistence steps and the batch
coordinator.

Modelling conventions:
* Go `int` is modelled as `Int` (overflow of `strconv.Atoi` on huge literals
  is not modelled; all values relevant to the claims are tiny).
* Go `float32`/`float64` parameter values are modelled as `ℚ`; the rounding
  performed by `float32(value)` is not modelled (no claim depends on it),
  and `strconv.ParseFloat`'s decimal grammar is modelled exactly for the
  sign/digits/fraction/exponent forms (the `Inf`/`NaN`/hex-float forms are
  not modelled; no claim uses them).
* Go maps (`c.Queries()`) are modelled as association lists; Go map
  iteration order is nondeterministic, the embedding iterates in list
  order (all claims about `parseFilters` use at most one key).
* The concurrent fan-out/fan-in routines are modelled by computing every
  worker's output from its own input and collecting the channel values in
  an explicit completion order `ord`; the theorems quantify over all
  completion orders that are permutations of the worker indices, which is
  exactly the set of behaviours the WaitGroup/close(channel) discipline of
  the Go code allows.  Side effects (HTTP fetches, blob writes, DB inserts)
  are recorded in an event list; only membership and counts of events are
  used in theorems, as the interleaving between workers is unspecified.
-/

deriving instance DecidableEq for Except

namespace SnapServe

/-! ## Decimal rendering: models `fmt.Sprintf("%d", ·)` / `strconv.FormatInt(·, 10)` -/

/-- Big-endian decimal digit list of `n`; `fuel` bounds the recursion and any
`fuel > n` is enough. -/
def natDecDigits : Nat → Nat → List Char
  | 0, _ => []
  | fuel + 1, n =>
    if n < 10 then [Nat.digitChar n]
    else natDecDigits fuel (n / 10) ++ [Nat.digitChar (n % 10)]

/-- Decimal rendering of a natural number, as produced by Go's `%d` verb and
`strconv.FormatInt(·, 10)` for non-negative values. -/
def natDecRepr (n : Nat) : String :=
  ⟨natDecDigits (n + 1) n⟩

/-- Value of a big-endian decimal digit list. -/
def decEval (cs : List Char) : Nat :=
  cs.foldl (fun a c => 10 * a + (c.toNat - 48)) 0

/-! ## `strconv.Atoi` and `strconv.ParseFloat` models -/

/-- Value of a non-empty all-digit character list, `none` otherwise.
Used by the `strconv.Atoi` model. -/
def decDigitsVal? : List Char → Option Nat
  | [] => none
  | c :: rest =>
    if (c :: rest).all Char.isDigit then some (decEval (c :: rest)) else none

/-- Model of Go `strconv.Atoi`: an optional single sign followed by at least
one decimal digit and nothing else.  (Int64 overflow is not modelled.) -/
def goAtoi (s : String) : Option Int :=
  match s.data with
  | [] => none
  | '+' :: rest => (decDigitsVal? rest).map Int.ofNat
  | '-' :: rest => (decDigitsVal? rest).map (fun v => -(v : Int))
  | cs => (decDigitsVal? cs).map Int.ofNat

/-- Digit-list value used by the float parser. -/
def pgfVal (cs : List Char) : ℚ := (decEval cs : ℚ)

/-- Model of Go `strconv.ParseFloat` on the decimal grammar
`[sign] (digits [. digits] | . digits) [e|E [sign] digits]`, with exact
rational semantics.  (`Inf`, `NaN`, hex floats and `float32` rounding are
not modelled; no claim depends on them.) -/
def parseGoFloatChars (cs0 : List Char) : Option ℚ :=
  let signed : ℚ × List Char :=
    match cs0 with
    | '+' :: r => (1, r)
    | '-' :: r => (-1, r)
    | r => (1, r)
  let sign := signed.1
  let ipSplit := signed.2.span Char.isDigit
  let ip := ipSplit.1
  let fracSplit : List Char × List Char :=
    match ipSplit.2 with
    | '.' :: r => r.span Char.isDigit
    | r => ([], r)
  let fp := fracSplit.1
  let hadDot : Bool := match ipSplit.2 with
    | '.' :: _ => true
    | _ => false
  let rest := if hadDot then fracSplit.2 else ipSplit.2
  if ip.length + fp.length = 0 then none
  else
    let mant : ℚ := pgfVal ip + pgfVal fp / (10 : ℚ) ^ fp.length
    match rest with
    | [] => some (sign * mant)
    | e :: r =>
      if e = 'e' ∨ e = 'E' then
        let esigned : Bool × List Char :=
          match r with
          | '+' :: r' => (false, r')
          | '-' :: r' => (true, r')
          | r' => (false, r')
        let edSplit := esigned.2.span Char.isDigit
        if edSplit.1.length = 0 ∨ edSplit.2 ≠ [] then none
        else
          let ex : ℤ := if esigned.1 then -(decEval edSplit.1 : ℤ) else (decEval edSplit.1 : ℤ)
          some (sign * mant * (10 : ℚ) ^ ex)
      else none

/-- Model of `strconv.ParseFloat(param, 32)` (see `parseGoFloatChars`). -/
def parseGoFloat (s : String) : Option ℚ := parseGoFloatChars s.data

/-! ## Filter-spec resolver (`handlers/image-filters.go`) -/

def MaxImageWidth : Nat := 4000
def MaxImageHeight : Nat := 4000
def JPEGQuality : Nat := 90
def MaxBlurRadius : Nat := 50
def MaxBrightness : Nat := 100
def MaxContrast : Nat := 100
def MaxSaturation : Nat := 200

/-- The `supportedFilters` map. -/
def supportedFilters (name : String) : Bool :=
  name = "resize" || name = "crop_to_size" || name = "rotate" ||
  name = "brightness_increase" || name = "brightness_decrease" ||
  name = "contrast_increase" || name = "contrast_decrease" ||
  name = "saturation_increase" || name = "saturation_decrease" ||
  name = "gaussian_blur" || name = "pixelate" || name = "grayscale" ||
  name = "invert"

/-- Errors produced during filter resolution: `FilterError{name, msg}` values
(rendered `filter '<name>': <msg>`) or plain `fmt.Errorf` strings. -/
inductive PErr where
  | filterErr (name msg : String)
  | plain (msg : String)
deriving DecidableEq, Repr

/-- `error.Error()`: the message the handler puts in the response. -/
def PErr.toMessage : PErr → String
  | .filterErr name msg => "filter '" ++ name ++ "': " ++ msg
  | .plain msg => msg

/-- The resolved filter operations (`gift.Filter` values as constructed by
`createFilter`; the fixed resampling/anchor/interpolation arguments of the
gift constructors are omitted as they carry no information). -/
inductive Filter where
  | resize (w h : Int)
  | cropToSize (w h : Int)
  | rotate (deg : ℚ)
  | brightness (v : ℚ)
  | contrast (v : ℚ)
  | saturation (v : ℚ)
  | gaussianBlur (r : ℚ)
  | pixelate (size : Int)
  | grayscale
  | invert
deriving DecidableEq, Repr

/-- `parseIntParam(param, paramName)`. -/
def parseIntParam (param paramName : String) : Except String Int :=
  if param = "" then .error (paramName ++ " parameter is required")
  else
    match goAtoi param with
    | none => .error ("invalid " ++ paramName ++ ": must be an integer")
    | some value =>
      if value < 0 then .error (paramName ++ " must be positive")
      else .ok value

/-- Rendering of Go's `%.1f` verb for the exact tenths used in this
codebase's range-error messages. -/
def fmtF1 (q : ℚ) : String :=
  let n : Int := ⌊q * 10⌋
  (if n < 0 then "-" else "") ++ natDecRepr (n.natAbs / 10) ++ "." ++ natDecRepr (n.natAbs % 10)

/-- `parseFloatParam(param, paramName, min, max)`. -/
def parseFloatParam (param paramName : String) (min max : ℚ) : Except String ℚ :=
  if param = "" then .error (paramName ++ " parameter is required")
  else
    match parseGoFloat param with
    | none => .error ("invalid " ++ paramName ++ ": must be a number")
    | some floatVal =>
      if floatVal < min ∨ floatVal > max then
        .error (paramName ++ " must be between " ++ fmtF1 min ++ " and " ++ fmtF1 max)
      else .ok floatVal

/-- `parseDimensions(param, filterName)`. -/
def parseDimensions (param filterName : String) : Except PErr (Int × Int) :=
  if param = "" then .error (.filterErr filterName "dimensions parameter is required")
  else
    match param.splitOn "x" with
    | [ws, hs] =>
      match parseIntParam ws "width" with
      | .error e => .error (.filterErr filterName e)
      | .ok width =>
        match parseIntParam hs "height" with
        | .error e => .error (.filterErr filterName e)
        | .ok height =>
          if width > (MaxImageWidth : Int) ∨ height > (MaxImageHeight : Int) then
            .error (.filterErr filterName
              ("dimensions too large (max " ++ natDecRepr MaxImageWidth ++ "x" ++
                natDecRepr MaxImageHeight ++ ")"))
          else .ok (width, height)
    | _ => .error (.filterErr filterName "dimensions must be in format 'widthxheight'")

/-- `createFilter(filterName, param)`. -/
def createFilter (filterName param : String) : Except PErr Filter :=
  match filterName with
  | "resize" =>
    match parseDimensions param filterName with
    | .error e => .error e
    | .ok (width, height) => .ok (.resize width height)
  | "crop_to_size" =>
    match parseDimensions param filterName with
    | .error e => .error e
    | .ok (width, height) => .ok (.cropToSize width height)
  | "rotate" =>
    match parseFloatParam param "rotation angle" (-360) 360 with
    | .error e => .error (.filterErr filterName e)
    | .ok degree => .ok (.rotate degree)
  | "brightness_increase" =>
    match parseFloatParam param "brightness" 0 (MaxBrightness : ℚ) with
    | .error e => .error (.filterErr filterName e)
    | .ok value => .ok (.brightness value)
  | "brightness_decrease" =>
    match parseFloatParam param "brightness" 0 (MaxBrightness : ℚ) with
    | .error e => .error (.filterErr filterName e)
    | .ok value => .ok (.brightness (-value))
  | "contrast_increase" =>
    match parseFloatParam param "contrast" 0 (MaxContrast : ℚ) with
    | .error e => .error (.filterErr filterName e)
    | .ok value => .ok (.contrast value)
  | "contrast_decrease" =>
    match parseFloatParam param "contrast" 0 (MaxContrast : ℚ) with
    | .error e => .error (.filterErr filterName e)
    | .ok value => .ok (.contrast (-value))
  | "saturation_increase" =>
    match parseFloatParam param "saturation" 0 (MaxSaturation : ℚ) with
    | .error e => .error (.filterErr filterName e)
    | .ok value => .ok (.saturation value)
  | "saturation_decrease" =>
    match parseFloatParam param "saturation" 0 (MaxSaturation : ℚ) with
    | .error e => .error (.filterErr filterName e)
    | .ok value => .ok (.saturation (-value))
  | "gaussian_blur" =>
    match parseFloatParam param "blur radius" (1/10) (MaxBlurRadius : ℚ) with
    | .error e => .error (.filterErr filterName e)
    | .ok value => .ok (.gaussianBlur value)
  | "pixelate" =>
    match parseIntParam param "pixelate size" with
    | .error e => .error (.filterErr filterName e)
    | .ok value =>
      if value > 50 then .error (.filterErr filterName "pixelate size too large (max 50)")
      else .ok (.pixelate value)
  | "grayscale" => .ok .grayscale
  | "invert" => .ok .invert
  | _ => .error (.filterErr filterName "unsupported filter")

/-- The loop body of `parseFilters`: iterate the query parameters, skipping
unsupported names, aborting on the first `createFilter` error, appending
resolved filters in iteration order. -/
def parseFiltersAux : List (String × String) → Except PErr (List Filter)
  | [] => .ok []
  | (filterName, param) :: rest =>
    if supportedFilters filterName then
      match createFilter filterName param with
      | .error e => .error e
      | .ok f =>
        match parseFiltersAux rest with
        | .error e => .error e
        | .ok fs => .ok (f :: fs)
    else parseFiltersAux rest

/-- `parseFilters(queryParams)`. -/
def parseFilters (queryParams : List (String × String)) : Except PErr (List Filter) :=
  match parseFiltersAux queryParams with
  | .error e => .error e
  | .ok filters =>
    if filters.length = 0 then .error (.plain "no valid filters specified")
    else .ok filters

/-- The sign-negation of an adjustment operation's magnitude. -/
def negMagnitude : Filter → Filter
  | .brightness v => .brightness (-v)
  | .contrast v => .contrast (-v)
  | .saturation v => .saturation (-v)
  | f => f

/-! ## Pipeline data model (`handlers/image-handler.go`, `models`) -/

/-- `models.Image` (the gorm bookkeeping columns are omitted). -/
structure ImageRecord where
  userID : Nat
  filename : String
  originalURL : String
  status : String
deriving DecidableEq, Repr

/-- A decoded `image.Image`: its bounds plus an abstract content identifier. -/
structure GoImage where
  dx : Nat
  dy : Nat
  content : Nat
deriving DecidableEq, Repr

/-- The part of an `http.Response` the code inspects. -/
structure HTTPResponse where
  statusCode : Nat
  contentType : String
  body : List Nat
deriving DecidableEq, Repr

/-- Externally observable side effects of one request: HTTP fetches of source
bytes, object-storage blob writes, and metadata-row inserts.  The model never
emits any deletion/rollback event because the code performs none. -/
inductive Event where
  | fetchReq (url : String)
  | blobWrite (path : String) (content : List Nat)
  | dbInsert (rec : ImageRecord)
deriving DecidableEq, Repr

/-- The external collaborators consumed by the handler: the image-index table,
the HTTP transport, the image codec, the gift filter kernels, the
object-store call outcomes (`uploadErr i` is the `io.Copy`/`Close` outcome of
upload worker `i` and `time i` its `time.Now().UnixNano()` reading), and the
metadata-store insert outcomes. -/
structure Env where
  dbImages : List ImageRecord
  httpGet : String → Except String HTTPResponse
  decode : List Nat → Except String GoImage
  process : List Filter → GoImage → GoImage
  encode : GoImage → Except String (List Nat)
  uploadErr : Nat → Option String
  time : Nat → Nat
  insertErr : String → Option String
  bucketName : String

/-- `GetImageFromDB(url)`: look the url up in the known-image index
(`db.Where("original_url = ?", url).First`); a missing row is the
"image not found" error.  (Other gorm transport errors are not modelled.) -/
def GetImageFromDB (env : Env) (url : String) : Except String ImageRecord :=
  match env.dbImages.find? (fun r => r.originalURL = url) with
  | none => .error "image not found"
  | some r => .ok r

/-- `validateURL(imageURL)`. -/
def validateURL (env : Env) (imageURL : String) : Except String Unit :=
  match GetImageFromDB env imageURL with
  | .error e => .error e
  | .ok _ => .ok ()

/-- `loadImage(imageURL)`: index validation, HTTP fetch, status check,
content-type check, decode, size check.  The event list records whether the
HTTP fetch was performed. -/
def loadImage (env : Env) (imageURL : String) : Except String GoImage × List Event :=
  match validateURL env imageURL with
  | .error e => (.error e, [])
  | .ok _ =>
    match env.httpGet imageURL with
    | .error e => (.error ("failed to fetch image: " ++ e), [.fetchReq imageURL])
    | .ok res =>
      if res.statusCode ≠ 200 then
        (.error ("received status code " ++ natDecRepr res.statusCode), [.fetchReq imageURL])
      else if ¬ res.contentType.startsWith "image/" then
        (.error "URL does not point to an image", [.fetchReq imageURL])
      else
        match env.decode res.body with
        | .error e => (.error ("failed to decode image: " ++ e), [.fetchReq imageURL])
        | .ok img =>
          if img.dx > MaxImageWidth ∨ img.dy > MaxImageHeight then
            (.error ("image too large (max " ++ natDecRepr MaxImageWidth ++ "x" ++
              natDecRepr MaxImageHeight ++ ")"), [.fetchReq imageURL])
          else (.ok img, [.fetchReq imageURL])

/-- `processImage(src, filters)`: applies the gift pipeline; the Go function
always returns a nil error. -/
def processImage (env : Env) (src : GoImage) (filters : List Filter) : Except String GoImage :=
  .ok (env.process filters src)

/-- `encodeImage(img)`: JPEG-encode at the fixed quality. -/
def encodeImage (env : Env) (img : GoImage) : Except String (List Nat) :=
  match env.encode img with
  | .error e => .error ("failed to encode image: " ++ e)
  | .ok b => .ok b

/-- The fixed `uploadPath` of the `ClientUploader` singleton. -/
def uploadPath : String := "images/"

/-- The full object path `UploadProcessedFile` stores under: the fixed
`uploadPath` prefix followed by the generated `uniqueFilename`
`<timestamp>_<object>`. -/
def storedPath (ts : Nat) (object : String) : String :=
  uploadPath ++ (natDecRepr ts ++ "_" ++ object)

/-- The public URL `UploadProcessedFile` returns:
`https://storage.googleapis.com/<bucket>/<objectPath>`. -/
def publicUrl (env : Env) (ts : Nat) (object : String) : String :=
  "https://storage.googleapis.com/" ++ env.bucketName ++ "/" ++ storedPath ts object

/-- `UploadProcessedFile(file, object)`: builds the unique stored name
`<timestamp>_<object>` under `uploadPath`, writes the blob there, and
returns the public URL together with `object` itself.  `ts` is this call's
`time.Now().UnixNano()` reading and `copyErr` the outcome of the
`io.Copy`/`Writer.Close` pair. -/
def UploadProcessedFile (env : Env) (ts : Nat) (copyErr : Option String)
    (file : List Nat) (object : String) : Except String (String × String) × List Event :=
  match copyErr with
  | some e => (.error ("io.Copy: " ++ e), [])
  | none =>
    (.ok (publicUrl env ts object, object), [.blobWrite (storedPath ts object) file])

/-- `uploadImageToDB(url, filename, userID)`: always inserts a fresh row
(`db.Create`) — there is no lookup, uniqueness constraint, or dedup. -/
def uploadImageToDB (env : Env) (url filename : String) (userID : Nat) :
    Option String × List Event :=
  match env.insertErr url with
  | some e => (some e, [])
  | none => (none, [.dbInsert ⟨userID, filename, url, "completed"⟩])

/-! ## Fan-out/fan-in routines

Each `routineX` spawns one worker per input item, the workers send their
results on a channel, and the results are drained until the channel is
closed, which happens only after `wg.Wait()` — i.e. after every worker has
finished.  The drain therefore collects exactly one value per spawned
worker, in an arbitrary completion order.  `collectInOrder outs ord` is the
drained list for completion order `ord`; the behaviours the Go code admits
are exactly those with `validOrder n ord`. -/

/-- Channel values drained in completion order `ord`. -/
def collectInOrder (outs : List α) (ord : List Nat) : List α :=
  ord.filterMap (fun i => outs[i]?)

/-- A completion order of `n` workers: each of the `n` indices exactly once. -/
def validOrder (n : Nat) (ord : List Nat) : Prop :=
  ord.Perm (List.range n)

instance (n : Nat) (ord : List Nat) : Decidable (validOrder n ord) :=
  inferInstanceAs (Decidable (ord.Perm (List.range n)))

/-- The per-worker channel values of `routineLoadImages`: each worker sends
`nil` on a load error, the loaded image otherwise. -/
def loadChanVals (env : Env) (images : List String) : List (Option GoImage) :=
  images.map (fun url => (loadImage env url).1.toOption)

/-- `routineLoadImages(images)`: fan-out one `loadImage` worker per url,
drain all results, keep the non-nil ones (failures are dropped without
recording anything). -/
def routineLoadImages (env : Env) (ord : List Nat) (images : List String) :
    List GoImage × List Event :=
  ((collectInOrder (loadChanVals env images) ord).filterMap id,
   images.flatMap (fun url => (loadImage env url).2))

/-- The per-worker channel values of `routineProcessImages` (`processImage`
never fails, so every worker sends its processed image). -/
def processChanVals (env : Env) (filters : List Filter) (images : List GoImage) :
    List (Option GoImage) :=
  images.map (fun img => (processImage env img filters).toOption)

/-- `routineProcessImages(images, filters)`. -/
def routineProcessImages (env : Env) (ord : List Nat) (images : List GoImage)
    (filters : List Filter) : List GoImage :=
  (collectInOrder (processChanVals env filters images) ord).filterMap id

/-- The per-worker channel values of `routineEncodeImages`. -/
def encodeChanVals (env : Env) (images : List GoImage) : List (Option (List Nat)) :=
  images.map (fun img => (encodeImage env img).toOption)

/-- `routineEncodeImages(images)`. -/
def routineEncodeImages (env : Env) (ord : List Nat) (images : List GoImage) :
    List (List Nat) :=
  (collectInOrder (encodeChanVals env images) ord).filterMap id

/-- `UploadResult` of `image-filters.go`. -/
structure UploadResult where
  URL : String
  Filename : String
  Error : Option String
deriving DecidableEq, Repr

/-- Upload worker `index`: builds `"<base>_<index>.jpg"` and calls
`UploadProcessedFile`; on error it reports the empty url/filename together
with the error. -/
def uploadWorker (env : Env) (baseFilename : String) (index : Nat) (r : List Nat) :
    UploadResult × List Event :=
  let filename := baseFilename ++ "_" ++ natDecRepr index ++ ".jpg"
  match UploadProcessedFile env (env.time index) (env.uploadErr index) r filename with
  | (.ok (url, uploadedFilename), evs) => (⟨url, uploadedFilename, none⟩, evs)
  | (.error e, evs) => (⟨"", "", some e⟩, evs)

/-- The per-worker outputs of `routineUploadImages` (result sent on the
channel, plus the worker's blob-store effects). -/
def uploadOuts (env : Env) (readers : List (List Nat)) (baseFilename : String) :
    List (UploadResult × List Event) :=
  readers.enum.map (fun p => uploadWorker env baseFilename p.1 p.2)

/-- `routineUploadImages(readers, baseFilename)`: every worker's result is
collected, succeeded or failed. -/
def routineUploadImages (env : Env) (ord : List Nat) (readers : List (List Nat))
    (baseFilename : String) : List UploadResult × List Event :=
  (collectInOrder ((uploadOuts env readers baseFilename).map Prod.fst) ord,
   (uploadOuts env readers baseFilename).flatMap Prod.snd)

/-- The per-worker outputs of `routineSaveImageRecords`: workers are spawned
only for results without an upload error. -/
def saveOuts (env : Env) (uploadResults : List UploadResult) (userId : Nat) :
    List (Option String × List Event) :=
  (uploadResults.filter (fun r => r.Error = none)).map
    (fun r => uploadImageToDB env r.URL r.Filename userId)

/-- `routineSaveImageRecords(uploadResults, userId)`: one concurrent insert
per error-free upload; the non-nil insert errors are collected. -/
def routineSaveImageRecords (env : Env) (ord : List Nat)
    (uploadResults : List UploadResult) (userId : Nat) : List String × List Event :=
  ((collectInOrder ((saveOuts env uploadResults userId).map Prod.fst) ord).filterMap id,
   (saveOuts env uploadResults userId).flatMap Prod.snd)

/-! ## The handler `ApplyFilterToImage` -/

/-- The JSON envelope the handler returns: an error status/message (`data`
is always `nil` on errors) or the 200 response with its
per-item `{url, filename}` list. -/
inductive Response where
  | error (status : Nat) (message : String)
  | ok (message : String) (data : List (String × String))
deriving DecidableEq, Repr

/-- One completion order per fan-out point of the request. -/
structure Sched where
  loadOrd : List Nat
  procOrd : List Nat
  encOrd : List Nat
  upOrd : List Nat
  saveOrd : List Nat

/-- `ApplyFilterToImage(c)`.  `auth` is the `CheckUserLoggedIn` outcome,
`body` the `BodyParser` outcome and `query` the `c.Queries()` map.  Returns
the response together with the request's externally visible side effects. -/
def ApplyFilterToImage (env : Env) (sch : Sched) (auth : Option Nat)
    (body : Option (List String)) (query : List (String × String)) :
    Response × List Event :=
  match auth with
  | none => (.error 401 "Authentication required", [])
  | some userId =>
    match body with
    | none => (.error 400 "Invalid request body", [])
    | some imageUrls =>
      let cleanImageUrls := imageUrls.filter (fun v => v ≠ "")
      if cleanImageUrls.isEmpty then (.error 400 "image_url is required", [])
      else
        let loaded := routineLoadImages env sch.loadOrd cleanImageUrls
        let loadImgs := loaded.1
        let ev1 := loaded.2
        if loadImgs.isEmpty then (.error 400 "Failed to load any images", ev1)
        else
          match parseFilters query with
          | .error e => (.error 400 e.toMessage, ev1)
          | .ok filters =>
            let processedImgs := routineProcessImages env sch.procOrd loadImgs filters
            if processedImgs.isEmpty then
              (.error 500 "Failed to process any images", ev1)
            else
              let encodedReaders := routineEncodeImages env sch.encOrd processedImgs
              if encodedReaders.isEmpty then
                (.error 500 "Failed to encode any processed images", ev1)
              else
                let uploaded := routineUploadImages env sch.upOrd encodedReaders "processed_image"
                let successfulUploads := uploaded.1.filter (fun r => r.Error = none)
                if successfulUploads.isEmpty then
                  (.error 500 "Failed to upload any processed images", ev1 ++ uploaded.2)
                else
                  let savedRes := routineSaveImageRecords env sch.saveOrd successfulUploads userId
                  if ¬ savedRes.1.isEmpty then
                    (.error 500 "Failed to save some image records", ev1 ++ uploaded.2 ++ savedRes.2)
                  else
                    (.ok ("Successfully processed " ++ natDecRepr successfulUploads.length ++
                          " image(s)")
                         (successfulUploads.map (fun r => (r.URL, r.Filename))),
                     ev1 ++ uploaded.2 ++ savedRes.2)

/-- The per-item data of a response (`data` field). -/
def respData : Response → List (String × String)
  | .error _ _ => []
  | .ok _ d => d

/-- The metadata rows inserted during a run. -/
def insertedRecords (evs : List Event) : List ImageRecord :=
  evs.filterMap (fun e => match e with | .dbInsert r => some r | _ => none)

/-- The blob writes performed during a run. -/
def blobWrites (evs : List Event) : List (String × List Nat) :=
  evs.filterMap (fun e => match e with | .blobWrite p c => some (p, c) | _ => none)

/-! ## Concrete test environments used by witnesses and counterexamples -/

/-- A concrete environment: `u1`, `u2`, `u3` are recorded as previously
uploaded; fetching `u1` succeeds with a small image, fetching `u2`/`u3`
returns HTTP 404; decoding, processing, encoding, uploads and inserts all
succeed. -/
def envA : Env where
  dbImages := [⟨1, "a.jpg", "u1", "completed"⟩, ⟨1, "b.jpg", "u2", "completed"⟩,
               ⟨1, "c.jpg", "u3", "completed"⟩]
  httpGet := fun url =>
    if url = "u1" then .ok ⟨200, "image/jpeg", [7]⟩ else .ok ⟨404, "text/html", []⟩
  decode := fun b => .ok ⟨100, 100, b.headD 0⟩
  process := fun _ img => ⟨img.dx, img.dy, img.content + 1⟩
  encode := fun img => .ok [img.content]
  uploadErr := fun _ => none
  time := fun i => i
  insertErr := fun _ => none
  bucketName := "bkt"

/-- `envA` with every metadata insert failing. -/
def envB : Env :=
  { envA with insertErr := fun _ => some "connection refused" }

/-- Identity completion orders for a three-source batch of which one source
survives loading. -/
def schedA : Sched :=
  ⟨List.range 3, List.range 1, List.range 1, List.range 1, List.range 1⟩

/-- Identity completion orders for a single-source batch. -/
def sched1 : Sched :=
  ⟨List.range 1, List.range 1, List.range 1, List.range 1, List.range 1⟩

/-! ## Resolver theorems -/

theorem decEval_append (l : List Char) (c : Char) :
    decEval (l ++ [c]) = 10 * decEval l + (c.toNat - 48) := by
  simp [decEval, List.foldl_append]

theorem digitChar_val (n : Nat) (h : n < 10) : (Nat.digitChar n).toNat - 48 = n := by
  interval_cases n <;> decide

theorem decEval_foldl_shift (cs : List Char) (a : Nat) :
    cs.foldl (fun a c => 10 * a + (c.toNat - 48)) a =
      a * 10 ^ cs.length + decEval cs := by
  induction cs generalizing a with
  | nil => simp [decEval]
  | cons c cs ih =>
    simp only [List.foldl_cons, decEval, pow_succ, List.length_cons]
    rw [ih, ih (10 * 0 + (c.toNat - 48))]
    ring

theorem decEval_natDecDigits (fuel n : Nat) (h : n < fuel) :
    decEval (natDecDigits fuel n) = n := by
  induction fuel generalizing n with
  | zero => omega
  | succ fuel ih =>
    rw [natDecDigits]
    by_cases h10 : n < 10
    · simp only [if_pos h10, decEval, List.foldl_cons, List.foldl_nil]
      rw [Nat.mul_zero, Nat.zero_add, digitChar_val n h10]
    · rw [if_neg h10, decEval_append, ih (n / 10) (by omega),
        digitChar_val (n % 10) (Nat.mod_lt n (by omega))]
      omega

theorem natDecRepr_injective : Function.Injective natDecRepr := by
  intro m n h
  have hd : natDecDigits (m + 1) m = natDecDigits (n + 1) n := by
    simpa [natDecRepr, String.ext_iff] using h
  have := decEval_natDecDigits (m + 1) m (Nat.lt_succ_self m)
  rw [hd, decEval_natDecDigits (n + 1) n (Nat.lt_succ_self n)] at this
  exact this.symm


theorem parseIntParam_ok_nonneg {p n : String} {v : Int}
    (h : parseIntParam p n = .ok v) : 0 ≤ v := by
  by_cases hne : p = ""
  · simp [parseIntParam, hne] at h
  · cases hg : goAtoi p with
    | none => simp [parseIntParam, hne, hg] at h
    | some w =>
      by_cases hw : w < 0
      · simp [parseIntParam, hne, hg, hw] at h
      · simp [parseIntParam, hne, hg, hw] at h
        omega

theorem parseIntParam_of_goAtoi {s name : String} {v : Int}
    (h : goAtoi s = some v) (hv : 0 ≤ v) : parseIntParam s name = .ok v := by
  have hne : s ≠ "" := by
    intro he; rw [he] at h; exact absurd h (by simp [goAtoi])
  simp [parseIntParam, hne, h, Int.not_lt.mpr hv]

/-- Claim C5: `parseFilters` silently skips unrecognized keys, and resolving
zero valid filters — the empty mapping, the all-unknown mapping
`{"unknown": "x"}`, or any all-unknown mapping — fails with the error
"no valid filters specified". -/
theorem parseFilters_skips_unknown_and_requires_one :
    (∀ (qp : List (String × String)) (k v : String), supportedFilters k = false →
        parseFilters ((k, v) :: qp) = parseFilters qp) ∧
    parseFilters [] = .error (.plain "no valid filters specified") ∧
    parseFilters [("unknown", "x")] = .error (.plain "no valid filters specified") ∧
    (∀ qp : List (String × String), (∀ p ∈ qp, supportedFilters p.1 = false) →
        parseFilters qp = .error (.plain "no valid filters specified")) := by
  refine ⟨?_, by decide, by decide, ?_⟩
  · intro qp k v hk
    have haux : parseFiltersAux ((k, v) :: qp) = parseFiltersAux qp := by
      simp [parseFiltersAux, hk]
    unfold parseFilters
    rw [haux]
  · intro qp hall
    have haux : parseFiltersAux qp = .ok [] := by
      induction qp with
      | nil => rfl
      | cons p rest ih =>
        have hp : supportedFilters p.1 = false := hall p (by simp)
        cases p with
        | mk pn pv =>
          simp only [parseFiltersAux, hp, Bool.false_eq_true, if_false]
          exact ih (fun q hq => hall q (by simp [hq]))
    unfold parseFilters
    rw [haux]
    rfl

/-- Witness for C5: the unknown key "zzz" is skipped in front of an empty
mapping. -/
theorem parseFilters_skips_unknown_and_requires_one_witness :
    supportedFilters "zzz" = false ∧ parseFilters [("zzz", "y")] = parseFilters [] :=
  ⟨by decide, parseFilters_skips_unknown_and_requires_one.1 [] "zzz" "y" (by decide)⟩

/-- Claim C6: dimension parameters must have the form `"<width>x<height>"`
with exactly one separator and non-negative integer components at most 4000:
`resize=800x600` resolves, `resize=800` fails with the malformed-dimensions
error, `resize=5000x100` fails with the over-maximum error, and any
successful `parseDimensions` comes from exactly two separator-split parts
that parse as non-negative integers at most 4000. -/
theorem parseDimensions_form_and_bounds :
    parseFilters [("resize", "800x600")] = .ok [.resize 800 600] ∧
    parseFilters [("resize", "800")] =
      .error (.filterErr "resize" "dimensions must be in format 'widthxheight'") ∧
    parseFilters [("resize", "5000x100")] =
      .error (.filterErr "resize" "dimensions too large (max 4000x4000)") ∧
    (∀ (param filterName : String) (w h : Int),
        parseDimensions param filterName = .ok (w, h) →
        ∃ ws hs, param.splitOn "x" = [ws, hs] ∧
          parseIntParam ws "width" = .ok w ∧ parseIntParam hs "height" = .ok h ∧
          0 ≤ w ∧ 0 ≤ h ∧ w ≤ 4000 ∧ h ≤ 4000) := by
  refine ⟨by with_unfolding_all rfl, by with_unfolding_all rfl,
    by with_unfolding_all rfl, ?_⟩
  intro param filterName w h hok
  unfold parseDimensions at hok
  split at hok
  · simp at hok
  · split at hok
    · rename_i ws hs hsplit
      split at hok
      · simp at hok
      · rename_i wv hw
        split at hok
        · simp at hok
        · rename_i hv hh
          split at hok
          · simp at hok
          · rename_i hbig
            simp only [Except.ok.injEq, Prod.mk.injEq] at hok
            obtain ⟨rfl, rfl⟩ := hok
            refine ⟨ws, hs, hsplit, hw, hh,
              parseIntParam_ok_nonneg hw, parseIntParam_ok_nonneg hh, ?_, ?_⟩
            · have := (not_or.mp hbig).1
              simp only [MaxImageWidth, not_lt] at this
              exact_mod_cast this
            · have := (not_or.mp hbig).2
              simp only [MaxImageHeight, not_lt] at this
              exact_mod_cast this
    · simp at hok

/-- Witness for C6: the general success characterization applied to
`parseDimensions "800x600" "resize"`. -/
theorem parseDimensions_form_and_bounds_witness :
    parseDimensions "800x600" "resize" = .ok (800, 600) ∧
    ∃ ws hs, "800x600".splitOn "x" = [ws, hs] ∧
      parseIntParam ws "width" = .ok 800 ∧ parseIntParam hs "height" = .ok 600 ∧
      (0 : Int) ≤ 800 ∧ (0 : Int) ≤ 600 ∧ (800 : Int) ≤ 4000 ∧ (600 : Int) ≤ 4000 :=
  ⟨by with_unfolding_all rfl,
   parseDimensions_form_and_bounds.2.2.2 "800x600" "resize" 800 600 (by with_unfolding_all rfl)⟩


/-- Claim C7: each `_decrease` key resolves, on every parameter string, to
exactly the operation its `_increase` counterpart resolves to with the
magnitude sign-negated; the decrease variants are not distinct operations. -/
theorem decrease_resolves_to_negated_increase :
    ∀ param : String,
      (createFilter "brightness_decrease" param).toOption =
        ((createFilter "brightness_increase" param).toOption).map negMagnitude ∧
      (createFilter "contrast_decrease" param).toOption =
        ((createFilter "contrast_increase" param).toOption).map negMagnitude ∧
      (createFilter "saturation_decrease" param).toOption =
        ((createFilter "saturation_increase" param).toOption).map negMagnitude := by
  intro param
  refine ⟨?_, ?_, ?_⟩
  · cases h : parseFloatParam param "brightness" 0 (MaxBrightness : ℚ) <;>
      simp [createFilter, h, negMagnitude, Except.toOption]
  · cases h : parseFloatParam param "contrast" 0 (MaxContrast : ℚ) <;>
      simp [createFilter, h, negMagnitude, Except.toOption]
  · cases h : parseFloatParam param "saturation" 0 (MaxSaturation : ℚ) <;>
      simp [createFilter, h, negMagnitude, Except.toOption]

/-- Claim C10: the integer validator rejects only negative parsed values, so
zero dimensions are accepted: `resize=0x600` and `resize=0x0` both resolve
to a resize filter carrying the zero dimension, any string parsing to a
non-negative integer is accepted, and any string parsing to a negative
integer is rejected with the "must be positive" error. -/
theorem parseIntParam_rejects_only_negative :
    parseFilters [("resize", "0x600")] = .ok [.resize 0 600] ∧
    parseFilters [("resize", "0x0")] = .ok [.resize 0 0] ∧
    (∀ (s name : String) (v : Int), goAtoi s = some v → 0 ≤ v →
        parseIntParam s name = .ok v) ∧
    (∀ (s name : String) (v : Int), goAtoi s = some v → v < 0 →
        parseIntParam s name = .error (name ++ " must be positive")) := by
  refine ⟨by with_unfolding_all rfl, by with_unfolding_all rfl,
    fun s name v h hv => parseIntParam_of_goAtoi h hv, ?_⟩
  intro s name v h hv
  have hne : s ≠ "" := by
    intro he; rw [he] at h; exact absurd h (by simp [goAtoi])
  simp [parseIntParam, hne, h, hv]

/-- Witness for C10: zero is accepted and `-1` is rejected by the integer
validator. -/
theorem parseIntParam_rejects_only_negative_witness :
    parseIntParam "0" "width" = .ok 0 ∧
    parseIntParam "-1" "width" = .error "width must be positive" :=
  ⟨parseIntParam_rejects_only_negative.2.2.1 "0" "width" 0 (by decide) (by decide),
   parseIntParam_rejects_only_negative.2.2.2 "-1" "width" (-1) (by decide) (by decide)⟩


/-! ## Per-item fetch stage (C4) -/

/-- Claim C4: the per-item fetch stage first resolves the source reference
against the persistence layer's known-image index and fails — without
performing any HTTP fetch — for any reference not previously recorded as
uploaded; for recorded references it fails on any non-2xx transport status
and on any 200-status non-image content type; and each item's channel value
in the batch fan-out depends only on that item's own url. -/
theorem loadImage_fetch_guards :
    (∀ (env : Env) (url : String),
        env.dbImages.find? (fun r => r.originalURL = url) = none →
        loadImage env url = (.error "image not found", [])) ∧
    (∀ (env : Env) (url : String) (rec : ImageRecord) (res : HTTPResponse),
        GetImageFromDB env url = .ok rec →
        env.httpGet url = .ok res →
        ¬ (200 ≤ res.statusCode ∧ res.statusCode ≤ 299) →
        (loadImage env url).1 =
          .error ("received status code " ++ natDecRepr res.statusCode)) ∧
    (∀ (env : Env) (url : String) (rec : ImageRecord) (res : HTTPResponse),
        GetImageFromDB env url = .ok rec →
        env.httpGet url = .ok res →
        res.statusCode = 200 →
        ¬ res.contentType.startsWith "image/" →
        (loadImage env url).1 = .error "URL does not point to an image") ∧
    (∀ (env : Env) (images : List String) (i : Nat),
        (loadChanVals env images)[i]? =
          (images[i]?).map (fun url => (loadImage env url).1.toOption)) := by
  refine ⟨?_, ?_, ?_, ?_⟩
  · intro env url hfind
    simp [loadImage, validateURL, GetImageFromDB, hfind]
  · intro env url rec res hrec hget hstatus
    have hne : res.statusCode ≠ 200 := by omega
    simp [loadImage, validateURL, hrec, hget, hne]
  · intro env url rec res hrec hget h200 hct
    simp [loadImage, validateURL, hrec, hget, h200, hct]
  · intro env images i
    simp [loadChanVals]

/-- Witness for C4: in `envA` the unrecorded reference `u9` fails at index
resolution with no fetch performed, and the recorded reference `u2` whose
fetch returns HTTP 404 fails with the status-code reason. -/
theorem loadImage_fetch_guards_witness :
    envA.dbImages.find? (fun r => r.originalURL = "u9") = none ∧
    loadImage envA "u9" = (.error "image not found", []) ∧
    (loadImage envA "u2").1 = .error "received status code 404" :=
  ⟨by decide, loadImage_fetch_guards.1 envA "u9" (by decide),
   loadImage_fetch_guards.2.1 envA "u2" ⟨1, "b.jpg", "u2", "completed"⟩
     ⟨404, "text/html", []⟩ (by decide) (by decide) (by decide)⟩

/-! ## Upload naming (C2) -/

theorem list_append_right_cancel {α : Type} {l1 l2 t : List α}
    (h : l1 ++ t = l2 ++ t) : l1 = l2 := by
  have hr := congrArg List.reverse h
  simp only [List.reverse_append] at hr
  have := List.append_cancel_left hr
  exact List.reverse_injective this

theorem string_append_right_cancel {l1 l2 t : String}
    (h : l1 ++ t = l2 ++ t) : l1 = l2 := by
  have hd : l1.data ++ t.data = l2.data ++ t.data := by
    have := congrArg String.data h
    simpa [String.data_append] using this
  exact String.ext (list_append_right_cancel hd)

theorem string_append_left_cancel {p l1 l2 : String}
    (h : p ++ l1 = p ++ l2) : l1 = l2 := by
  have hd : p.data ++ l1.data = p.data ++ l2.data := by
    have := congrArg String.data h
    simpa [String.data_append] using this
  exact String.ext (List.append_cancel_left hd)

theorem storedPath_inj_ts {ts1 ts2 : Nat} (object : String) (h : ts1 ≠ ts2) :
    storedPath ts1 object ≠ storedPath ts2 object := by
  intro he
  apply h
  apply natDecRepr_injective
  have h1 := string_append_left_cancel (p := uploadPath) he
  have h2 : (natDecRepr ts1 ++ "_" ++ object) = (natDecRepr ts2 ++ "_" ++ object) := by
    simpa [String.append_assoc] using h1
  have h3 : natDecRepr ts1 ++ ("_" ++ object) = natDecRepr ts2 ++ ("_" ++ object) := by
    simpa [String.append_assoc] using h2
  exact string_append_right_cancel h3

theorem publicUrl_inj_ts {env : Env} {ts1 ts2 : Nat} (object : String)
    (h : ts1 ≠ ts2) : publicUrl env ts1 object ≠ publicUrl env ts2 object := by
  intro he
  refine storedPath_inj_ts object h ?_
  unfold publicUrl at he
  have h1 : ("https://storage.googleapis.com/" ++ env.bucketName ++ "/") ++ storedPath ts1 object =
      ("https://storage.googleapis.com/" ++ env.bucketName ++ "/") ++ storedPath ts2 object := by
    simpa [String.append_assoc] using he
  exact string_append_left_cancel h1

/-- Claim C2 counterexample: at timestamp 1 with base name
`processed_image_0.jpg`, the upload stores the encoded bytes under
`images/1_processed_image_0.jpg` but returns the base name
`processed_image_0.jpg` — not the stored name (which appears only inside the
returned URL). -/
theorem uploadProcessedFile_returns_base_name_cex :
    (UploadProcessedFile envA 1 none [8] "processed_image_0.jpg").1 =
      .ok ("https://storage.googleapis.com/bkt/images/1_processed_image_0.jpg",
           "processed_image_0.jpg") ∧
    (UploadProcessedFile envA 1 none [8] "processed_image_0.jpg").2 =
      [.blobWrite "images/1_processed_image_0.jpg" [8]] ∧
    "processed_image_0.jpg" ≠ "1_processed_image_0.jpg" ∧
    "processed_image_0.jpg" ≠ "images/1_processed_image_0.jpg" := by
  refine ⟨by with_unfolding_all rfl, by with_unfolding_all rfl, by decide, by decide⟩

/-- Claim C2 as amended: the upload step stores the encoded bytes under the
collision-resistant generated name `<timestamp>_<base>` within the fixed
prefix and returns the public URL containing that stored name together with
the original base name (not the stored name); running the same successful
item twice with distinct timestamps stores two distinct names at two
distinct URLs, and recording both results inserts two distinct, independent
metadata records — no deduplication. -/
theorem uploadProcessedFile_unique_names :
    ∀ (env : Env) (ts1 ts2 : Nat) (f1 f2 : List Nat) (object : String) (uid : Nat),
      ts1 ≠ ts2 →
      env.insertErr (publicUrl env ts1 object) = none →
      env.insertErr (publicUrl env ts2 object) = none →
      (UploadProcessedFile env ts1 none f1 object).1 = .ok (publicUrl env ts1 object, object) ∧
      (UploadProcessedFile env ts1 none f1 object).2 =
        [.blobWrite (storedPath ts1 object) f1] ∧
      (UploadProcessedFile env ts2 none f2 object).2 =
        [.blobWrite (storedPath ts2 object) f2] ∧
      storedPath ts1 object ≠ storedPath ts2 object ∧
      publicUrl env ts1 object ≠ publicUrl env ts2 object ∧
      (uploadImageToDB env (publicUrl env ts1 object) object uid).2 =
        [.dbInsert ⟨uid, object, publicUrl env ts1 object, "completed"⟩] ∧
      (uploadImageToDB env (publicUrl env ts2 object) object uid).2 =
        [.dbInsert ⟨uid, object, publicUrl env ts2 object, "completed"⟩] ∧
      (⟨uid, object, publicUrl env ts1 object, "completed"⟩ : ImageRecord) ≠
        ⟨uid, object, publicUrl env ts2 object, "completed"⟩ := by
  intro env ts1 ts2 f1 f2 object uid hts hins1 hins2
  refine ⟨rfl, rfl, rfl, storedPath_inj_ts object hts, publicUrl_inj_ts object hts,
    by simp [uploadImageToDB, hins1], by simp [uploadImageToDB, hins2], ?_⟩
  intro he
  exact publicUrl_inj_ts object hts (congrArg ImageRecord.originalURL he)

/-- Witness for the amended C2: two uploads of the same item at timestamps 0
and 1 in `envA`. -/
theorem uploadProcessedFile_unique_names_witness :
    (0 : Nat) ≠ 1 ∧
    storedPath 0 "processed_image_0.jpg" ≠ storedPath 1 "processed_image_0.jpg" ∧
    publicUrl envA 0 "processed_image_0.jpg" ≠ publicUrl envA 1 "processed_image_0.jpg" :=
  ⟨by decide,
   (uploadProcessedFile_unique_names envA 0 1 [8] [8] "processed_image_0.jpg" 7
      (by decide) rfl rfl).2.2.2.1,
   (uploadProcessedFile_unique_names envA 0 1 [8] [8] "processed_image_0.jpg" 7
      (by decide) rfl rfl).2.2.2.2.1⟩

/-! ## Fan-out/fan-in coordination (C8) -/

theorem collectInOrder_range {α : Type} (outs : List α) :
    collectInOrder outs (List.range outs.length) = outs := by
  induction outs with
  | nil => rfl
  | cons x xs ih =>
    unfold collectInOrder
    rw [List.length_cons, List.range_succ_eq_map, List.filterMap_cons,
      List.filterMap_map]
    simp only [List.getElem?_cons_zero, Function.comp_def, List.getElem?_cons_succ]
    unfold collectInOrder at ih
    rw [ih]

theorem collectInOrder_perm {α : Type} {n : Nat} {ord : List Nat} (outs : List α)
    (hlen : outs.length = n) (hord : validOrder n ord) :
    (collectInOrder outs ord).Perm outs := by
  have h1 : (collectInOrder outs ord).Perm (collectInOrder outs (List.range n)) :=
    List.Perm.filterMap _ hord
  rw [← hlen] at h1
  rw [collectInOrder_range] at h1
  exact h1

/-- Claim C8: after fan-out the coordinator's drain loop collects, for every
admissible completion order, exactly one result per spawned worker — a
permutation of all workers' channel values, none missing (the join waits for
every worker to finish before the routine returns) and none extra — both at
the load fan-out and at the upload fan-out (where even failed results are
collected, so the result count equals the worker count); and each worker's
channel value is a function of its own item alone, so one item's failure
never affects — let alone cancels — a sibling worker's value. -/
theorem routines_join_all_and_isolate :
    (∀ (env : Env) (ord : List Nat) (images : List String),
        validOrder images.length ord →
        (collectInOrder (loadChanVals env images) ord).Perm (loadChanVals env images) ∧
        (collectInOrder (loadChanVals env images) ord).length = images.length ∧
        ((routineLoadImages env ord images).1).Perm
          ((loadChanVals env images).filterMap id)) ∧
    (∀ (env : Env) (ord : List Nat) (readers : List (List Nat)) (base : String),
        validOrder readers.length ord →
        ((routineUploadImages env ord readers base).1).Perm
          ((uploadOuts env readers base).map Prod.fst) ∧
        ((routineUploadImages env ord readers base).1).length = readers.length) ∧
    (∀ (env : Env) (images : List String) (i : Nat),
        (loadChanVals env images)[i]? =
          (images[i]?).map (fun u => (loadImage env u).1.toOption)) ∧
    (∀ (env : Env) (readers : List (List Nat)) (base : String) (i : Nat) (r : List Nat),
        readers[i]? = some r →
        ((uploadOuts env readers base).map Prod.fst)[i]? =
          some (uploadWorker env base i r).1) := by
  refine ⟨?_, ?_, ?_, ?_⟩
  · intro env ord images hord
    have hlen : (loadChanVals env images).length = images.length := by
      simp [loadChanVals]
    have hperm := collectInOrder_perm (loadChanVals env images) hlen hord
    exact ⟨hperm, by rw [hperm.length_eq, hlen],
      List.Perm.filterMap id hperm⟩
  · intro env ord readers base hord
    have hlen : ((uploadOuts env readers base).map Prod.fst).length = readers.length := by
      simp [uploadOuts]
    have hperm := collectInOrder_perm ((uploadOuts env readers base).map Prod.fst) hlen hord
    refine ⟨hperm, ?_⟩
    have hru : (routineUploadImages env ord readers base).1 =
        collectInOrder ((uploadOuts env readers base).map Prod.fst) ord := rfl
    rw [hru, hperm.length_eq]
    exact hlen
  · intro env images i
    simp [loadChanVals]
  · intro env readers base i r hr
    simp [uploadOuts, List.getElem?_map, List.getElem?_enum, hr]

/-- Witness for C8: a two-item batch drained in reversed completion order
`[1, 0]` still yields one result per worker. -/
theorem routines_join_all_and_isolate_witness :
    validOrder 2 [1, 0] ∧
    (collectInOrder (loadChanVals envA ["u1", "u2"]) [1, 0]).length = 2 ∧
    (routineUploadImages envA [1, 0] [[8], [9]] "processed_image").1.length = 2 :=
  ⟨by decide,
   ((routines_join_all_and_isolate.1 envA [1, 0] ["u1", "u2"]) (by decide)).2.1,
   ((routines_join_all_and_isolate.2.1 envA [1, 0] [[8], [9]] "processed_image")
      (by decide)).2⟩

/-! ## Validation timing (C3) -/

theorem loadImage_events_fetch_only (env : Env) (url : String) :
    ∀ ev ∈ (loadImage env url).2, ev = Event.fetchReq url := by
  unfold loadImage
  repeat' split
  all_goals simp

theorem routineLoadImages_events_fetch_only (env : Env) (ord : List Nat)
    (images : List String) :
    ∀ ev ∈ (routineLoadImages env ord images).2, ∃ u, ev = Event.fetchReq u := by
  intro ev hev
  unfold routineLoadImages at hev
  simp only [List.mem_flatMap] at hev
  obtain ⟨url, _, hev⟩ := hev
  exact ⟨url, loadImage_events_fetch_only env url ev hev⟩

theorem routineLoadImages_no_blobs_no_records (env : Env) (ord : List Nat)
    (images : List String) :
    blobWrites (routineLoadImages env ord images).2 = [] ∧
    insertedRecords (routineLoadImages env ord images).2 = [] := by
  constructor
  · refine List.filterMap_eq_nil_iff.mpr fun ev hev => ?_
    obtain ⟨u, rfl⟩ := routineLoadImages_events_fetch_only env ord images ev hev
    rfl
  · refine List.filterMap_eq_nil_iff.mpr fun ev hev => ?_
    obtain ⟨u, rfl⟩ := routineLoadImages_events_fetch_only env ord images ev hev
    rfl

/-- Claim C3 counterexample: a request with a single loadable source `u1`
and the invalid filter specification `resize=800` is answered with the
ValidationError — but only after the per-item fetch stage has already run:
the run's side effects contain the HTTP fetch of `u1`, so the abort does not
happen "before any per-item work starts". -/
theorem applyFilter_validates_after_loading_cex :
    ApplyFilterToImage envA sched1 (some 7) (some ["u1"]) [("resize", "800")] =
      (.error 400 "filter 'resize': dimensions must be in format 'widthxheight'",
       [.fetchReq "u1"]) ∧
    Event.fetchReq "u1" ∈
      (ApplyFilterToImage envA sched1 (some 7) (some ["u1"]) [("resize", "800")]).2 := by
  refine ⟨by with_unfolding_all rfl, ?_⟩
  rw [show (ApplyFilterToImage envA sched1 (some 7) (some ["u1"]) [("resize", "800")]).2 =
      [Event.fetchReq "u1"] from by with_unfolding_all rfl]
  exact List.mem_singleton.mpr rfl

/-- Claim C3 as amended: a batch request whose filter specification is
invalid (a recognized key with an invalid parameter, or zero valid filters)
aborts as a whole with the ValidationError message before the processing,
encoding, upload and persistence stages — no blob is written and no record
inserted — but only after the per-item load stage (fetch and decode) has
already run for every item, because the handler validates filters after
`routineLoadImages`, not before it. -/
theorem applyFilter_validation_aborts_before_processing :
    ∀ (env : Env) (sch : Sched) (uid : Nat) (urls : List String)
      (query : List (String × String)) (e : PErr),
      parseFilters query = .error e →
      (urls.filter (fun v => v ≠ "")).isEmpty = false →
      ((routineLoadImages env sch.loadOrd (urls.filter (fun v => v ≠ ""))).1).isEmpty = false →
      ApplyFilterToImage env sch (some uid) (some urls) query =
        (.error 400 e.toMessage,
         (routineLoadImages env sch.loadOrd (urls.filter (fun v => v ≠ ""))).2) ∧
      blobWrites (ApplyFilterToImage env sch (some uid) (some urls) query).2 = [] ∧
      insertedRecords (ApplyFilterToImage env sch (some uid) (some urls) query).2 = [] := by
  intro env sch uid urls query e hq hclean hload
  have hmain : ApplyFilterToImage env sch (some uid) (some urls) query =
      (.error 400 e.toMessage,
       (routineLoadImages env sch.loadOrd (urls.filter (fun v => v ≠ ""))).2) := by
    unfold ApplyFilterToImage
    simp only [hclean, hload, hq, Bool.false_eq_true, if_false]
  refine ⟨hmain, ?_, ?_⟩
  · rw [hmain]
    exact (routineLoadImages_no_blobs_no_records env sch.loadOrd
      (urls.filter (fun v => v ≠ ""))).1
  · rw [hmain]
    exact (routineLoadImages_no_blobs_no_records env sch.loadOrd
      (urls.filter (fun v => v ≠ ""))).2

/-- Witness for the amended C3: the concrete aborted run of the
counterexample input satisfies the general abort shape. -/
theorem applyFilter_validation_aborts_before_processing_witness :
    parseFilters [("resize", "800")] =
      .error (.filterErr "resize" "dimensions must be in format 'widthxheight'") ∧
    blobWrites (ApplyFilterToImage envA sched1 (some 7) (some ["u1"]) [("resize", "800")]).2 = [] ∧
    insertedRecords
      (ApplyFilterToImage envA sched1 (some 7) (some ["u1"]) [("resize", "800")]).2 = [] :=
  ⟨by with_unfolding_all rfl,
   (applyFilter_validation_aborts_before_processing envA sched1 7 ["u1"] [("resize", "800")]
      (.filterErr "resize" "dimensions must be in format 'widthxheight'")
      (by with_unfolding_all rfl) (by with_unfolding_all rfl)
      (by with_unfolding_all rfl)).2.1,
   (applyFilter_validation_aborts_before_processing envA sched1 7 ["u1"] [("resize", "800")]
      (.filterErr "resize" "dimensions must be in format 'widthxheight'")
      (by with_unfolding_all rfl) (by with_unfolding_all rfl)
      (by with_unfolding_all rfl)).2.2⟩

/-! ## Record-write failure after successful uploads (C9) -/

theorem blobWrites_append (a b : List Event) :
    blobWrites (a ++ b) = blobWrites a ++ blobWrites b :=
  List.filterMap_append a b _

theorem insertedRecords_append (a b : List Event) :
    insertedRecords (a ++ b) = insertedRecords a ++ insertedRecords b :=
  List.filterMap_append a b _

theorem mem_collectInOrder {α : Type} {outs : List α} {ord : List Nat} {a : α}
    (h : a ∈ collectInOrder outs ord) : a ∈ outs := by
  unfold collectInOrder at h
  obtain ⟨i, _, hi⟩ := List.mem_filterMap.mp h
  exact List.getElem?_mem hi

theorem routineSaveImageRecords_errors_perm (env : Env) (ord : List Nat)
    (results : List UploadResult) (uid : Nat)
    (hord : validOrder (results.filter (fun r => r.Error = none)).length ord) :
    ((routineSaveImageRecords env ord results uid).1).Perm
      (((saveOuts env results uid).map Prod.fst).filterMap id) := by
  have hlen : ((saveOuts env results uid).map Prod.fst).length =
      (results.filter (fun r => r.Error = none)).length := by
    simp [saveOuts]
  exact List.Perm.filterMap id
    (collectInOrder_perm ((saveOuts env results uid).map Prod.fst) hlen hord)

/-- Claim C9: when the batch reaches the persistence stage with every upload
succeeded and at least one metadata record write fails, the handler answers
with the 500 "Failed to save some image records" error response carrying no
per-item data, while every blob written by the upload stage is still among
the run's blob writes (no rollback or compensating delete is ever performed)
and every record whose insert succeeded is still among the run's inserts. -/
theorem applyFilter_record_failure_no_rollback :
    ∀ (env : Env) (sch : Sched) (uid : Nat) (urls : List String)
      (query : List (String × String)) (filters : List Filter)
      (loadImgs : List GoImage) (encoded : List (List Nat))
      (uploadResults : List UploadResult),
      (urls.filter (fun v => v ≠ "")).isEmpty = false →
      (routineLoadImages env sch.loadOrd (urls.filter (fun v => v ≠ ""))).1 = loadImgs →
      loadImgs.isEmpty = false →
      parseFilters query = .ok filters →
      (routineProcessImages env sch.procOrd loadImgs filters).isEmpty = false →
      routineEncodeImages env sch.encOrd
        (routineProcessImages env sch.procOrd loadImgs filters) = encoded →
      encoded.isEmpty = false →
      (routineUploadImages env sch.upOrd encoded "processed_image").1 = uploadResults →
      (∀ r ∈ uploadResults, r.Error = none) →
      uploadResults.isEmpty = false →
      validOrder uploadResults.length sch.saveOrd →
      (∃ r ∈ uploadResults, env.insertErr r.URL ≠ none) →
      (ApplyFilterToImage env sch (some uid) (some urls) query).1 =
        .error 500 "Failed to save some image records" ∧
      respData (ApplyFilterToImage env sch (some uid) (some urls) query).1 = [] ∧
      (∀ pc ∈ blobWrites (routineUploadImages env sch.upOrd encoded "processed_image").2,
          pc ∈ blobWrites (ApplyFilterToImage env sch (some uid) (some urls) query).2) ∧
      (∀ r ∈ uploadResults, env.insertErr r.URL = none →
          Event.dbInsert ⟨uid, r.Filename, r.URL, "completed"⟩ ∈
            (ApplyFilterToImage env sch (some uid) (some urls) query).2) := by
  intro env sch uid urls query filters loadImgs encoded uploadResults
  intro hclean hL hloadne hq hprocne hE hencne hU hupOk hupne hordSave hfail
  -- the filter over the collected upload results keeps everything
  have hfilter_self : uploadResults.filter (fun r => r.Error = none) = uploadResults :=
    List.filter_eq_self.mpr (fun r hr => by simp [hupOk r hr])
  -- the save stage reports at least one error
  have hordSave' : validOrder (uploadResults.filter (fun r => r.Error = none)).length
      sch.saveOrd := by rw [hfilter_self]; exact hordSave
  have hsave_ne : (routineSaveImageRecords env sch.saveOrd uploadResults uid).1 ≠ [] := by
    obtain ⟨r0, hr0, hfail0⟩ := hfail
    obtain ⟨e0, he0⟩ := Option.ne_none_iff_exists.mp hfail0
    have hmem0 : (some e0 : Option String) ∈ (saveOuts env uploadResults uid).map Prod.fst := by
      refine List.mem_map.mpr ⟨uploadImageToDB env r0.URL r0.Filename uid, ?_, ?_⟩
      · refine List.mem_map.mpr ⟨r0, ?_, rfl⟩
        rw [hfilter_self]; exact hr0
      · simp [uploadImageToDB, ← he0]
    have hmem1 : e0 ∈ ((saveOuts env uploadResults uid).map Prod.fst).filterMap id :=
      List.mem_filterMap.mpr ⟨some e0, hmem0, rfl⟩
    have hperm := routineSaveImageRecords_errors_perm env sch.saveOrd uploadResults uid hordSave'
    exact List.ne_nil_of_mem (hperm.mem_iff.mpr hmem1)
  have hsave_isEmpty : ((routineSaveImageRecords env sch.saveOrd uploadResults uid).1).isEmpty
      = false := by
    cases hsv : (routineSaveImageRecords env sch.saveOrd uploadResults uid).1 with
    | nil => exact absurd hsv hsave_ne
    | cons a l => rfl
  -- the main run shape
  have hmain : ApplyFilterToImage env sch (some uid) (some urls) query =
      (.error 500 "Failed to save some image records",
       (routineLoadImages env sch.loadOrd (urls.filter (fun v => v ≠ ""))).2 ++
         (routineUploadImages env sch.upOrd encoded "processed_image").2 ++
         (routineSaveImageRecords env sch.saveOrd uploadResults uid).2) := by
    unfold ApplyFilterToImage
    simp only [hclean, hL, hloadne, hq, hprocne, hE, hencne, hU, hfilter_self, hupne,
      hsave_isEmpty, Bool.false_eq_true, if_false, not_false_iff, if_true, ite_false,
      Bool.not_false, ite_true]
  refine ⟨by rw [hmain], by rw [hmain]; rfl, ?_, ?_⟩
  · intro pc hpc
    rw [hmain]
    simp only [blobWrites_append, List.mem_append]
    exact Or.inl (Or.inr hpc)
  · intro r hr hnone
    rw [hmain]
    have hin : Event.dbInsert ⟨uid, r.Filename, r.URL, "completed"⟩ ∈
        (routineSaveImageRecords env sch.saveOrd uploadResults uid).2 := by
      unfold routineSaveImageRecords
      refine List.mem_flatMap.mpr ⟨uploadImageToDB env r.URL r.Filename uid, ?_, ?_⟩
      · refine List.mem_map.mpr ⟨r, ?_, rfl⟩
        unfold saveOuts at *
        rw [hfilter_self]; exact hr
      · simp [uploadImageToDB, hnone]
    simp only [List.mem_append]
    exact Or.inr hin

/-- Witness for C9: in `envB` (all metadata inserts fail) the single
successfully uploaded item yields the error response while its blob write
survives in the run's effects. -/
theorem applyFilter_record_failure_no_rollback_witness :
    (∀ r ∈ (routineUploadImages envB sched1.upOrd [[8]] "processed_image").1,
        r.Error = none) ∧
    (∃ r ∈ (routineUploadImages envB sched1.upOrd [[8]] "processed_image").1,
        envB.insertErr r.URL ≠ none) ∧
    (ApplyFilterToImage envB sched1 (some 7) (some ["u1"]) [("grayscale", "")]).1 =
      .error 500 "Failed to save some image records" ∧
    respData (ApplyFilterToImage envB sched1 (some 7) (some ["u1"]) [("grayscale", "")]).1
      = [] :=
  ⟨by with_unfolding_all decide, by with_unfolding_all decide,
   (applyFilter_record_failure_no_rollback envB sched1 7 ["u1"] [("grayscale", "")]
      [.grayscale] [⟨100, 100, 7⟩] [[8]]
      [⟨"https://storage.googleapis.com/bkt/images/0_processed_image_0.jpg",
        "processed_image_0.jpg", none⟩]
      (by with_unfolding_all rfl) (by with_unfolding_all rfl) (by with_unfolding_all rfl)
      (by with_unfolding_all rfl) (by with_unfolding_all rfl) (by with_unfolding_all rfl)
      (by with_unfolding_all rfl) (by with_unfolding_all rfl)
      (by with_unfolding_all decide) (by with_unfolding_all rfl)
      (by with_unfolding_all decide) (by with_unfolding_all decide)).1,
   (applyFilter_record_failure_no_rollback envB sched1 7 ["u1"] [("grayscale", "")]
      [.grayscale] [⟨100, 100, 7⟩] [[8]]
      [⟨"https://storage.googleapis.com/bkt/images/0_processed_image_0.jpg",
        "processed_image_0.jpg", none⟩]
      (by with_unfolding_all rfl) (by with_unfolding_all rfl) (by with_unfolding_all rfl)
      (by with_unfolding_all rfl) (by with_unfolding_all rfl) (by with_unfolding_all rfl)
      (by with_unfolding_all rfl) (by with_unfolding_all rfl)
      (by with_unfolding_all decide) (by with_unfolding_all rfl)
      (by with_unfolding_all decide) (by with_unfolding_all decide)).2.1⟩

/-! ## Batch accounting (C1) -/

theorem length_filterMap_id {α : Type} (l : List (Option α)) :
    (l.filterMap id).length = l.countP (fun o => o.isSome) := by
  induction l with
  | nil => rfl
  | cons o t ih =>
    cases o with
    | none => simpa [List.filterMap_cons, List.countP_cons] using ih
    | some a => simpa [List.filterMap_cons, List.countP_cons] using ih

theorem filterMap_id_map_some {α β : Type} (l : List α) (f : α → β) :
    (l.map (fun a => some (f a))).filterMap id = l.map f := by
  induction l with
  | nil => rfl
  | cons a t ih => simpa [List.filterMap_cons] using ih

theorem uploadWorker_ok {env : Env} {i : Nat} (base : String) (r : List Nat)
    (h : env.uploadErr i = none) :
    uploadWorker env base i r =
      (⟨publicUrl env (env.time i) (base ++ "_" ++ natDecRepr i ++ ".jpg"),
        base ++ "_" ++ natDecRepr i ++ ".jpg", none⟩,
       [.blobWrite (storedPath (env.time i) (base ++ "_" ++ natDecRepr i ++ ".jpg")) r]) := by
  simp [uploadWorker, UploadProcessedFile, h]

theorem uploadWorker_events_blob_only (env : Env) (base : String) (i : Nat)
    (r : List Nat) :
    ∀ ev ∈ (uploadWorker env base i r).2, ∃ p c, ev = Event.blobWrite p c := by
  intro ev hev
  unfold uploadWorker UploadProcessedFile at hev
  cases h : env.uploadErr i with
  | none =>
    rw [h] at hev
    simp only [List.mem_singleton] at hev
    exact ⟨_, _, hev⟩
  | some e =>
    rw [h] at hev
    simp at hev

theorem routineUploadImages_no_records (env : Env) (ord : List Nat)
    (readers : List (List Nat)) (base : String) :
    insertedRecords (routineUploadImages env ord readers base).2 = [] := by
  refine List.filterMap_eq_nil_iff.mpr fun ev hev => ?_
  unfold routineUploadImages at hev
  obtain ⟨p, hp, hev⟩ := List.mem_flatMap.mp hev
  obtain ⟨q, hq, rfl⟩ := List.mem_map.mp hp
  obtain ⟨_, _, rfl⟩ := uploadWorker_events_blob_only env base q.1 q.2 ev hev
  rfl

theorem insertedRecords_inserts_all_ok {env : Env} {uid : Nat} :
    ∀ (l : List UploadResult), (∀ r ∈ l, env.insertErr r.URL = none) →
    insertedRecords (l.flatMap (fun r => (uploadImageToDB env r.URL r.Filename uid).2)) =
      l.map (fun r => (⟨uid, r.Filename, r.URL, "completed"⟩ : ImageRecord)) := by
  intro l hl
  induction l with
  | nil => rfl
  | cons r t ih =>
    have hr : env.insertErr r.URL = none := hl r (by simp)
    have ht := ih (fun q hq => hl q (by simp [hq]))
    simp only [List.flatMap_cons, List.map_cons, insertedRecords, List.filterMap_append]
    rw [show (uploadImageToDB env r.URL r.Filename uid).2 =
        [Event.dbInsert ⟨uid, r.Filename, r.URL, "completed"⟩] from by
      simp [uploadImageToDB, hr]]
    unfold insertedRecords at ht
    rw [ht]
    rfl

theorem routineSaveImageRecords_all_ok (env : Env) (ord : List Nat)
    (results : List UploadResult) (uid : Nat)
    (h : ∀ r ∈ results, env.insertErr r.URL = none) :
    (routineSaveImageRecords env ord results uid).1 = [] ∧
    insertedRecords (routineSaveImageRecords env ord results uid).2 =
      (results.filter (fun r => r.Error = none)).map
        (fun r => (⟨uid, r.Filename, r.URL, "completed"⟩ : ImageRecord)) := by
  constructor
  · refine List.filterMap_eq_nil_iff.mpr fun o ho => ?_
    have ho' := mem_collectInOrder ho
    obtain ⟨p, hp, rfl⟩ := List.mem_map.mp ho'
    unfold saveOuts at hp
    obtain ⟨r, hr, rfl⟩ := List.mem_map.mp hp
    have : env.insertErr r.URL = none := h r (List.mem_of_mem_filter hr)
    simp [uploadImageToDB, this]
  · have hflat : (routineSaveImageRecords env ord results uid).2 =
        (results.filter (fun r => r.Error = none)).flatMap
          (fun r => (uploadImageToDB env r.URL r.Filename uid).2) := by
      unfold routineSaveImageRecords saveOuts
      rw [List.flatMap_map]
    rw [hflat]
    exact insertedRecords_inserts_all_ok (results.filter (fun r => r.Error = none))
      (fun r hr => h r (List.mem_of_mem_filter hr))

/-- Claim C1 counterexample: a 3-source batch in which `u2` and `u3` fail at
the fetch stage (HTTP 404) while `u1` succeeds through every stage is
answered with the success envelope shown below, which reports only the one
succeeded item: the returned outcome contains no failed count, no entry for
the failed items, and no fetch-stage reason anywhere, so it does not report
`failed == 2` with two fetch-stage failure reasons and carries no
`succeeded + failed == total` accounting. -/
theorem applyFilter_failures_unreported_cex :
    ApplyFilterToImage envA schedA (some 7) (some ["u1", "u2", "u3"]) [("grayscale", "")] =
      (.ok "Successfully processed 1 image(s)"
         [("https://storage.googleapis.com/bkt/images/0_processed_image_0.jpg",
           "processed_image_0.jpg")],
       [.fetchReq "u1", .fetchReq "u2", .fetchReq "u3",
        .blobWrite "images/0_processed_image_0.jpg" [8],
        .dbInsert ⟨7, "processed_image_0.jpg",
          "https://storage.googleapis.com/bkt/images/0_processed_image_0.jpg",
          "completed"⟩]) ∧
    (respData (ApplyFilterToImage envA schedA (some 7) (some ["u1", "u2", "u3"])
        [("grayscale", "")]).1).length = 1 ∧
    (∀ p ∈ respData (ApplyFilterToImage envA schedA (some 7) (some ["u1", "u2", "u3"])
        [("grayscale", "")]).1,
      p.1 ≠ "u2" ∧ p.2 ≠ "u2" ∧ p.1 ≠ "u3" ∧ p.2 ≠ "u3") := by
  refine ⟨by with_unfolding_all rfl, by with_unfolding_all rfl, ?_⟩
  rw [show respData (ApplyFilterToImage envA schedA (some 7) (some ["u1", "u2", "u3"])
      [("grayscale", "")]).1 =
      [("https://storage.googleapis.com/bkt/images/0_processed_image_0.jpg",
        "processed_image_0.jpg")] from by with_unfolding_all rfl]
  intro p hp
  rw [List.mem_singleton.mp hp]
  refine ⟨by decide, by decide, by decide, by decide⟩

/-- Claim C1 as amended: the handler reports only the successes.  For a
batch whose per-item load outcomes give `S ≥ 1` successes and `F` fetch
failures (`S + F = N`, the last conjunct) and whose remaining stages all
succeed, the response is the success envelope whose message and data report
exactly `S = N − F` items; the failures are dropped silently — no failed
count and no stage reason appears in the outcome — and the persisted-record
set consists of exactly one record per succeeded item, each derived from a
successful upload result, so failed items never appear in it. -/
theorem applyFilter_reports_only_successes :
    ∀ (env : Env) (sch : Sched) (uid : Nat) (urls : List String)
      (query : List (String × String)) (filters : List Filter)
      (loadImgs processed : List GoImage) (encoded : List (List Nat))
      (uploadResults : List UploadResult),
      urls.filter (fun v => v ≠ "") = urls →
      validOrder urls.length sch.loadOrd →
      (routineLoadImages env sch.loadOrd urls).1 = loadImgs →
      0 < (loadChanVals env urls).countP (fun o => o.isSome) →
      parseFilters query = .ok filters →
      validOrder loadImgs.length sch.procOrd →
      routineProcessImages env sch.procOrd loadImgs filters = processed →
      validOrder processed.length sch.encOrd →
      routineEncodeImages env sch.encOrd processed = encoded →
      (∀ img, ∃ b, env.encode img = .ok b) →
      validOrder encoded.length sch.upOrd →
      (routineUploadImages env sch.upOrd encoded "processed_image").1 = uploadResults →
      (∀ i, env.uploadErr i = none) →
      (∀ u, env.insertErr u = none) →
      (∃ d, (ApplyFilterToImage env sch (some uid) (some urls) query).1 =
          .ok ("Successfully processed " ++
                natDecRepr ((loadChanVals env urls).countP (fun o => o.isSome)) ++
                " image(s)") d ∧
          d.length = (loadChanVals env urls).countP (fun o => o.isSome)) ∧
      (insertedRecords (ApplyFilterToImage env sch (some uid) (some urls) query).2).length =
        (loadChanVals env urls).countP (fun o => o.isSome) ∧
      (∀ rec ∈ insertedRecords (ApplyFilterToImage env sch (some uid) (some urls) query).2,
          ∃ r ∈ uploadResults, r.Error = none ∧
            rec = ⟨uid, r.Filename, r.URL, "completed"⟩) ∧
      (loadChanVals env urls).countP (fun o => o.isSome) +
        (loadChanVals env urls).countP (fun o => o.isNone) = urls.length := by
  intro env sch uid urls query filters loadImgs processed encoded uploadResults
  intro hfe hordLoad hL hS hq hordProc hP hordEnc hE hencOk hordUp hU hupOk hinsOk
  -- stage 1: loading
  have hlenVals : (loadChanVals env urls).length = urls.length := by simp [loadChanVals]
  have hloadPerm : loadImgs.Perm ((loadChanVals env urls).filterMap id) := by
    rw [← hL]
    unfold routineLoadImages
    exact List.Perm.filterMap id (collectInOrder_perm (loadChanVals env urls) hlenVals hordLoad)
  have hlenLoad : loadImgs.length = (loadChanVals env urls).countP (fun o => o.isSome) := by
    rw [hloadPerm.length_eq, length_filterMap_id]
  have hloadne : loadImgs.isEmpty = false := by
    cases hc : loadImgs with
    | nil => rw [hc] at hlenLoad; simp at hlenLoad; omega
    | cons a l => rfl
  have hurlsne : urls.isEmpty = false := by
    cases hc : urls with
    | nil =>
      rw [hc] at hlenVals
      have h0 : (loadChanVals env ([] : List String)).countP (fun o => o.isSome) = 0 := by
        simp [loadChanVals]
      rw [hc, h0] at hS
      omega
    | cons a l => rfl
  -- stage 2: processing (the worker never fails)
  have hprocPerm : processed.Perm (loadImgs.map (env.process filters)) := by
    rw [← hP]
    have h3 : (processChanVals env filters loadImgs).filterMap id =
        loadImgs.map (env.process filters) := by
      show (loadImgs.map (fun img => some (env.process filters img))).filterMap id = _
      exact filterMap_id_map_some loadImgs (env.process filters)
    have h2 : (routineProcessImages env sch.procOrd loadImgs filters).Perm
        ((processChanVals env filters loadImgs).filterMap id) := by
      unfold routineProcessImages
      exact List.Perm.filterMap id (collectInOrder_perm _ (by simp [processChanVals]) hordProc)
    rwa [h3] at h2
  have hlenProc : processed.length = loadImgs.length := by
    rw [hprocPerm.length_eq, List.length_map]
  have hprocne : processed.isEmpty = false := by
    cases hc : processed with
    | nil => rw [hc] at hlenProc; rw [← hlenProc] at hlenLoad; simp at hlenLoad; omega
    | cons a l => rfl
  -- stage 3: encoding (every encode succeeds)
  have hencvals : ∀ o ∈ encodeChanVals env processed, (fun o => o.isSome) o = true := by
    intro o ho
    obtain ⟨img, _, rfl⟩ := List.mem_map.mp ho
    obtain ⟨b, hb⟩ := hencOk img
    simp [encodeImage, hb, Except.toOption]
  have hencPerm : encoded.Perm ((encodeChanVals env processed).filterMap id) := by
    rw [← hE]
    unfold routineEncodeImages
    exact List.Perm.filterMap id
      (collectInOrder_perm _ (by simp [encodeChanVals]) hordEnc)
  have hlenEnc : encoded.length = processed.length := by
    rw [hencPerm.length_eq, length_filterMap_id, List.countP_eq_length.mpr hencvals]
    simp [encodeChanVals]
  have hencne : encoded.isEmpty = false := by
    cases hc : encoded with
    | nil =>
      rw [hc] at hlenEnc
      rw [← hlenEnc] at hlenProc
      rw [← hlenProc] at hlenLoad
      simp at hlenLoad
      omega
    | cons a l => rfl
  -- stage 4: uploads (every upload succeeds)
  have hupPerm : uploadResults.Perm
      ((uploadOuts env encoded "processed_image").map Prod.fst) := by
    rw [← hU]
    have hru : (routineUploadImages env sch.upOrd encoded "processed_image").1 =
        collectInOrder ((uploadOuts env encoded "processed_image").map Prod.fst)
          sch.upOrd := rfl
    rw [hru]
    exact collectInOrder_perm _ (by simp [uploadOuts]) hordUp
  have hupAll : ∀ r ∈ uploadResults, r.Error = none := by
    intro r hr
    have hr' := hupPerm.mem_iff.mp hr
    obtain ⟨p, hp, hpr⟩ := List.mem_map.mp hr'
    unfold uploadOuts at hp
    obtain ⟨q, hq2, hqp⟩ := List.mem_map.mp hp
    have hrw : r = (uploadWorker env "processed_image" q.1 q.2).1 := by
      rw [hqp, hpr]
    rw [hrw, uploadWorker_ok _ _ (hupOk q.1)]
  have hfilter_self : uploadResults.filter (fun r => r.Error = none) = uploadResults :=
    List.filter_eq_self.mpr (fun r hr => by simp [hupAll r hr])
  have hlenUp : uploadResults.length = encoded.length := by
    rw [hupPerm.length_eq]
    simp [uploadOuts]
  have hlenS : uploadResults.length = (loadChanVals env urls).countP (fun o => o.isSome) := by
    rw [hlenUp, hlenEnc, hlenProc, hlenLoad]
  have hupne : uploadResults.isEmpty = false := by
    cases hc : uploadResults with
    | nil => rw [hc] at hlenS; simp at hlenS; omega
    | cons a l => rfl
  -- stage 5: record writes (every insert succeeds)
  have hsave := routineSaveImageRecords_all_ok env sch.saveOrd uploadResults uid
    (fun r _ => hinsOk r.URL)
  -- the run's overall shape
  have hmain : ApplyFilterToImage env sch (some uid) (some urls) query =
      (.ok ("Successfully processed " ++ natDecRepr uploadResults.length ++ " image(s)")
          (uploadResults.map (fun r => (r.URL, r.Filename))),
       (routineLoadImages env sch.loadOrd urls).2 ++
         (routineUploadImages env sch.upOrd encoded "processed_image").2 ++
         (routineSaveImageRecords env sch.saveOrd uploadResults uid).2) := by
    unfold ApplyFilterToImage
    simp only [hfe, hurlsne, hL, hloadne, hq, hP, hprocne, hE, hencne, hU, hfilter_self,
      hupne, hsave.1, List.isEmpty_nil, not_true, Bool.false_eq_true, if_false, ite_false,
      if_true, ite_true, Bool.not_true, not_false_iff]
  -- conclusions
  refine ⟨⟨uploadResults.map (fun r => (r.URL, r.Filename)), ?_, ?_⟩, ?_, ?_, ?_⟩
  · rw [hmain, hlenS]
  · rw [List.length_map, hlenS]
  · rw [hmain]
    simp only [insertedRecords_append]
    rw [(routineLoadImages_no_blobs_no_records env sch.loadOrd urls).2,
      routineUploadImages_no_records, hsave.2, hfilter_self]
    simp only [List.nil_append, List.length_map]
    exact hlenS
  · intro rec hrec
    rw [hmain] at hrec
    simp only [insertedRecords_append,
      (routineLoadImages_no_blobs_no_records env sch.loadOrd urls).2,
      routineUploadImages_no_records, hsave.2, hfilter_self, List.nil_append,
      List.mem_map] at hrec
    obtain ⟨r, hr, rfl⟩ := hrec
    exact ⟨r, hr, hupAll r hr, rfl⟩
  · have hsum : ∀ (l : List (Option GoImage)),
        l.countP (fun o => o.isSome) + l.countP (fun o => o.isNone) = l.length := by
      intro l
      induction l with
      | nil => rfl
      | cons o t ih =>
        cases o <;> simp [List.countP_cons] <;> omega
    rw [hsum, hlenVals]

/-- Witness for the amended C1: the concrete 3-source batch of the
counterexample (one load success, two fetch failures, all later stages
succeeding) reports exactly the one success. -/
theorem applyFilter_reports_only_successes_witness :
    0 < (loadChanVals envA ["u1", "u2", "u3"]).countP (fun o => o.isSome) ∧
    (∃ d, (ApplyFilterToImage envA schedA (some 7) (some ["u1", "u2", "u3"])
        [("grayscale", "")]).1 =
        .ok ("Successfully processed " ++
              natDecRepr ((loadChanVals envA ["u1", "u2", "u3"]).countP
                (fun o => o.isSome)) ++ " image(s)") d ∧
        d.length = (loadChanVals envA ["u1", "u2", "u3"]).countP (fun o => o.isSome)) :=
  ⟨by with_unfolding_all decide,
   (applyFilter_reports_only_successes envA schedA 7 ["u1", "u2", "u3"]
      [("grayscale", "")] [.grayscale] [⟨100, 100, 7⟩] [⟨100, 100, 8⟩] [[8]]
      [⟨"https://storage.googleapis.com/bkt/images/0_processed_image_0.jpg",
        "processed_image_0.jpg", none⟩]
      (by with_unfolding_all rfl) (by decide) (by with_unfolding_all rfl)
      (by with_unfolding_all decide) (by with_unfolding_all rfl) (by decide)
      (by with_unfolding_all rfl) (by decide) (by with_unfolding_all rfl)
      (fun img => ⟨[img.content], rfl⟩) (by decide) (by with_unfolding_all rfl)
      (fun i => rfl) (fun u => rfl)).1⟩

end SnapServe
